import Mathlib

/-!
Verification of the replited WAL-replication core against its specification.

Shallow embedding of the Rust sources under src/:
  - src/sqlite/common.rs       : checksum, align_frame, read_last_checksum
  - src/sqlite/wal_header.rs   : WALHeader::read
  - src/database/database.rs   : copy_to_shadow_wal, verify, decide_checkpoint_mode,
                                 calc_wal_size, sync notification, MAX_WAL_INDEX
  - src/storage/storage_client.rs : restore_wal_segments_of
  - src/sync/restore.rs        : Restore::run overwrite gate
  - src/sync/replicate.rs      : Replicate::sync inner loop, Replicate::command

Machine integers (u32/u64) are embedded as Nat with explicit reduction
modulo 2^32 exactly where the source uses wrapping arithmetic; file
contents are lists of byte values; fallible operations return Except.
-/

/-- Size in bytes of a WAL frame header (src/sqlite/common.rs line 8). -/
def WAL_FRAME_HEADER_SIZE : Nat := 24

/-- Size in bytes of a WAL file header (src/sqlite/common.rs line 9). -/
def WAL_HEADER_SIZE : Nat := 32

/-- Modulus of u32 arithmetic; wrapping_add in the source is addition mod this. -/
def u32Mod : Nat := 2 ^ 32

/-- MAX_WAL_INDEX from src/database/database.rs lines 55-57.  The source
comment reads: if this index is reached then a new generation will be
started. -/
def MAX_WAL_INDEX : Nat := 0x7FFFFFFF

/-- Big-endian 32-bit word from four bytes, as u32::from_be_bytes does. -/
def be_word (b0 b1 b2 b3 : Nat) : Nat := ((b0 * 256 + b1) * 256 + b2) * 256 + b3

/-- Little-endian 32-bit word from four bytes, as u32::from_le_bytes does. -/
def le_word (b0 b1 b2 b3 : Nat) : Nat := ((b3 * 256 + b2) * 256 + b1) * 256 + b0

/-- The 4-byte word read in the checksum loop of src/sqlite/common.rs lines 50-60,
endianness selected by the is_big_endian flag. -/
def word32 (isBig : Bool) (b0 b1 b2 b3 : Nat) : Nat :=
  if isBig then be_word b0 b1 b2 b3 else le_word b0 b1 b2 b3

/-- checksum from src/sqlite/common.rs lines 43-69.  The Rust while loop
consumes the data eight bytes at a time; each step reads two 32-bit words in
the header endianness and folds them with two wrapping_add chains
(s1 = s1.wrapping_add(n1).wrapping_add(s2); s2 = s2.wrapping_add(n2).wrapping_add(s1)).
The source indexes data[i..i+8] unguarded, so it is called only on inputs of
length a multiple of 8; the embedding stops when fewer than eight bytes
remain, which agrees with the source on all 8-byte-aligned inputs. -/
def checksum : List Nat → Nat → Nat → Bool → Nat × Nat
  | b0 :: b1 :: b2 :: b3 :: b4 :: b5 :: b6 :: b7 :: rest, s1, s2, isBig =>
    let n1 := word32 isBig b0 b1 b2 b3
    let n2 := word32 isBig b4 b5 b6 b7
    let s1a := ((s1 + n1) % u32Mod + s2) % u32Mod
    let s2a := ((s2 + n2) % u32Mod + s1a) % u32Mod
    checksum rest s1a s2a isBig
  | _, s1, s2, _ => (s1, s2)

/-- One step of the SQLite WAL checksum rule as the specification states it:
s1 is replaced by (s1 + word0 + s2) mod 2^32, then s2 by (s2 + word1 + s1) mod 2^32
using the already-updated s1. -/
def wal_checksum_step (s : Nat × Nat) (w : Nat × Nat) : Nat × Nat :=
  let s1a := (s.1 + w.1 + s.2) % u32Mod
  let s2a := (s.2 + w.2 + s1a) % u32Mod
  (s1a, s2a)

/-- The byte string decomposed into successive pairs of 32-bit words in the
given endianness, eight bytes per pair. -/
def word_pairs (isBig : Bool) : List Nat → List (Nat × Nat)
  | b0 :: b1 :: b2 :: b3 :: b4 :: b5 :: b6 :: b7 :: rest =>
    (word32 isBig b0 b1 b2 b3, word32 isBig b4 b5 b6 b7) :: word_pairs isBig rest
  | _ => []

/-- Specification-side checksum: fold the SQLite step over the word pairs. -/
def wal_checksum_spec (ws : List (Nat × Nat)) (s : Nat × Nat) : Nat × Nat :=
  ws.foldl wal_checksum_step s

/-- align_frame from src/sqlite/common.rs lines 98-109.  The source casts the
u64 arguments to i64 and uses i64 division; for all values below 2^63 the
casts preserve the value and i64 division of nonnegative operands equals
Nat division, so the embedding uses Nat arithmetic directly. -/
def align_frame (page_size offset : Nat) : Nat :=
  if offset < WAL_HEADER_SIZE then 0
  else
    let frame_size := WAL_FRAME_HEADER_SIZE + page_size
    let frame_num := (offset - WAL_HEADER_SIZE) / frame_size
    frame_num * frame_size + WAL_HEADER_SIZE

/-- from_be_bytes_at from src/sqlite/common.rs lines 111-114, generalized to an
arbitrary in-bounds offset; out-of-range bytes read as 0 (the source would
panic there, and every use in this development stays in bounds). -/
def from_be_bytes_at (data : List Nat) (offset : Nat) : Nat :=
  be_word (data.getD offset 0) (data.getD (offset + 1) 0)
    (data.getD (offset + 2) 0) (data.getD (offset + 3) 0)

/-- is_power_of_two from src/base/numerical.rs. -/
def is_power_of_two (num : Nat) : Bool := num != 0 && (num &&& (num - 1)) == 0

/-- Error kinds of the crate-wide Error enum (src/error/) that this
development distinguishes. -/
inductive ErrM where
  | invalidWalHeader
  | unexpectedEof
  | invalidGeneration
  | overwriteDb
deriving DecidableEq, Repr

/-- WALHeader (src/sqlite/wal_header.rs): the raw 32 bytes plus the parsed
salts, page size and endianness flag. -/
structure HeaderM where
  data : List Nat
  salt1 : Nat
  salt2 : Nat
  page_size : Nat
  is_big_endian : Bool
deriving DecidableEq, Repr

/-- WALHeader::read_from, src/sqlite/wal_header.rs lines 24-70: fail when the
file is shorter than a header; determine endianness from the magic bytes
(0x37 0x7f 0x06 0x83 big endian, 0x37 0x7f 0x06 0x82 little endian); require a
power-of-two page size of at least 1024 at bytes 8..12; recompute the checksum
of bytes 0..24 from (0,0) and compare with the big-endian words at 24 and 28;
finally read the salts at 16 and 20. -/
def wal_header_read (bytes : List Nat) : Except ErrM HeaderM :=
  if bytes.length < WAL_HEADER_SIZE then .error .invalidWalHeader
  else
    let data := bytes.take WAL_HEADER_SIZE
    let magic := data.take 4
    let isBigOpt : Option Bool :=
      if magic = [0x37, 0x7f, 0x06, 0x83] then some true
      else if magic = [0x37, 0x7f, 0x06, 0x82] then some false
      else none
    match isBigOpt with
    | none => .error .invalidWalHeader
    | some is_big_endian =>
      let page_size := from_be_bytes_at data 8
      if ¬ (is_power_of_two page_size = true ∧ 1024 ≤ page_size) then .error .invalidWalHeader
      else
        let s := checksum (data.take 24) 0 0 is_big_endian
        if from_be_bytes_at data 24 ≠ s.1 ∨ from_be_bytes_at data 28 ≠ s.2 then
          .error .invalidWalHeader
        else
          .ok ⟨data, from_be_bytes_at data 16, from_be_bytes_at data 20, page_size, is_big_endian⟩

/-- read_last_checksum from src/sqlite/common.rs lines 71-94: when the file is
larger than a header, read the two big-endian checksum words stored at offset
align_frame(page_size, size) - page_size - 24 + 16 (the checksum field of the
last whole frame header); otherwise read them from the header at offset 24.
A read of fewer than 8 bytes is an UnexpectedEof error. -/
def read_last_checksum (bytes : List Nat) (page_size : Nat) : Except ErrM (Nat × Nat) :=
  let fsize := bytes.length
  let offset :=
    if fsize > WAL_HEADER_SIZE then
      align_frame page_size fsize - page_size - WAL_FRAME_HEADER_SIZE + 16
    else 24
  if bytes.length < offset + 8 then .error .unexpectedEof
  else .ok (from_be_bytes_at bytes offset, from_be_bytes_at bytes (offset + 4))

/-- Modelled from the spec: WALFrame::read used by database.rs takes a reader
and the page size and is not under src/ (src/src/sqlite/wal_frame.rs holds a
different revision whose read takes the checksum state and header).  Per spec
section 4.1, read_frame(src, page_size) parses the 24-byte frame header
(page_number, db_size, salt1, salt2, cksum1, cksum2, all big-endian) followed
by one page, verifies nothing, and reports a short read; here it returns the
raw frame bytes, from which the parsed fields are read with from_be_bytes_at.
A frame read at an offset with fewer than 24+page_size bytes remaining is an
UnexpectedEof error. -/
def wal_frame_read_at (bytes : List Nat) (offset page_size : Nat) :
    Except ErrM (List Nat) :=
  if bytes.length < offset + (WAL_FRAME_HEADER_SIZE + page_size) then .error .unexpectedEof
  else .ok ((bytes.drop offset).take (WAL_FRAME_HEADER_SIZE + page_size))

/-- Result of copy_to_shadow_wal: the new shadow file contents and the
(orig_wal_size, new_size) pair the source returns. -/
structure CopyResult where
  shadow_wal : List Nat
  orig_wal_size : Nat
  new_size : Nat
deriving DecidableEq, Repr

/-- The frame-copy loop of copy_to_shadow_wal, src/database/database.rs lines
701-744.  Arguments ck10 ck20 are the pair returned by read_last_checksum:
in the source the rebindings (let (ck1, ck2) = checksum(...)) inside the loop
body shadow the outer ck1 ck2 only until the end of the iteration, so every
iteration folds the frame checksum starting again from the outer pair; the
embedding reproduces that by folding from ck10 ck20 on every frame.  The loop
stops on a short read (UnexpectedEof from WALFrame::read), on a salt mismatch
with the shadow header, or on a checksum mismatch, and otherwise appends the
raw frame to the scratch buffer, recording the offset past the frame as
last_commit_size whenever the frame has db_size different from 0.  The fuel
argument only bounds recursion depth; callers pass rest.length + 1 and each
iteration consumes at least 24 bytes of rest, so fuel is never exhausted. -/
def copy_loop (isBig : Bool) (hsalt1 hsalt2 ck10 ck20 page_size : Nat) :
    Nat → List Nat → Nat → Nat → List Nat → List Nat × Nat
  | 0, _, _, last_commit_size, acc => (acc, last_commit_size)
  | fuel + 1, rest, offset, last_commit_size, acc =>
    if rest.length < WAL_FRAME_HEADER_SIZE + page_size then (acc, last_commit_size)
    else
      let frame := rest.take (WAL_FRAME_HEADER_SIZE + page_size)
      if from_be_bytes_at frame 8 ≠ hsalt1 ∨ from_be_bytes_at frame 12 ≠ hsalt2 then
        (acc, last_commit_size)
      else
        let a := checksum (frame.take 8) ck10 ck20 isBig
        let b := checksum (frame.drop 24) a.1 a.2 isBig
        if b.1 ≠ from_be_bytes_at frame 16 ∨ b.2 ≠ from_be_bytes_at frame 20 then
          (acc, last_commit_size)
        else
          let offset2 := offset + (WAL_FRAME_HEADER_SIZE + page_size)
          copy_loop isBig hsalt1 hsalt2 ck10 ck20 page_size fuel
            (rest.drop (WAL_FRAME_HEADER_SIZE + page_size)) offset2
            (if from_be_bytes_at frame 4 ≠ 0 then offset2 else last_commit_size)
            (acc ++ frame)

/-- copy_to_shadow_wal from src/database/database.rs lines 673-782: align both
file sizes to frame boundaries, read the shadow header (authoritative salts
and endianness), recover the last checksum pair from the shadow, run the frame
loop over the live WAL starting at the aligned shadow size, and, unless no
commit frame was found, append the whole scratch buffer to the shadow; the
returned pair is (orig_wal_size, last_commit_size).  The source never
truncates the scratch buffer before appending it. -/
def copy_to_shadow_wal (page_size : Nat) (wal shadow : List Nat) :
    Except ErrM CopyResult :=
  let orig_wal_size := align_frame page_size wal.length
  let orig_shadow_wal_size := align_frame page_size shadow.length
  match wal_header_read shadow with
  | .error e => .error e
  | .ok wal_header =>
    match read_last_checksum shadow page_size with
    | .error e => .error e
    | .ok ck =>
      let rest := wal.drop orig_shadow_wal_size
      let r := copy_loop wal_header.is_big_endian wal_header.salt1 wal_header.salt2
        ck.1 ck.2 page_size (rest.length + 1) rest orig_shadow_wal_size
        orig_shadow_wal_size []
      if r.2 = orig_shadow_wal_size then .ok ⟨shadow, orig_wal_size, r.2⟩
      else .ok ⟨shadow ++ r.1, orig_wal_size, r.2⟩

/-- SyncInfo from src/database/database.rs lines 115-125, with db_mod_time as
seconds and the shadow_wal_file path left implicit (the verifier state below
carries that file's bytes directly). -/
structure SyncInfoM where
  generation : String
  db_mod_time : Option Nat
  index : Nat
  wal_size : Nat
  shadow_wal_size : Nat
  reason : Option String
  restart : Bool
deriving DecidableEq, Repr

/-- The filesystem state verify reads: the content of the generation pointer
file (none when the file is absent), the database modification time, the live
WAL bytes, the highest shadow index in the generation directory (what
current_shadow_index returns), whether the shadow file at that index exists,
and its bytes. -/
structure VerifyStateM where
  generation_file : Option String
  db_mod_time : Option Nat
  wal : List Nat
  shadow_index : Nat
  shadow_exists : Bool
  shadow : List Nat

/-- current_generation from src/database/database.rs lines 855-866: the
generation file content when it exists and has length exactly 32, otherwise
the empty string. -/
def current_generation (s : VerifyStateM) : String :=
  match s.generation_file with
  | none => ""
  | some g => if g.length = 32 then g else ""

/-- Hex digits accepted by Uuid::parse_str for the 32-character simple form,
used by Generation::try_create (src/base/generation.rs lines 27-29). -/
def is_hex_digit (c : Char) : Bool :=
  (decide ('0' ≤ c) && decide (c ≤ '9')) || (decide ('a' ≤ c) && decide (c ≤ 'f'))
    || (decide ('A' ≤ c) && decide (c ≤ 'F'))

/-- verify from src/database/database.rs lines 871-957, with the filesystem
reads drawn from a VerifyStateM.  The checks run in source order: missing or
malformed generation pointer; shadow index strictly above MAX_WAL_INDEX;
shadow file absent; aligned shadow size below a header; aligned shadow size
above the aligned live WAL size; header comparison (restart flag); header-only
shadow with mismatched headers; and finally a byte comparison of the last
shadow frame against the frame at the same offset of the live WAL.  Header and
frame read failures propagate as errors; the source never assigns info.index,
which therefore stays 0. -/
def verify_model (page_size : Nat) (s : VerifyStateM) : Except ErrM SyncInfoM :=
  let generation := current_generation s
  if generation = "" then
    .ok ⟨"", none, 0, 0, 0, some "no generation exists", false⟩
  else if ¬ (generation.toList.all is_hex_digit = true) then .error .invalidGeneration
  else
    let db_mod_time := s.db_mod_time
    let wal_size := align_frame page_size s.wal.length
    if s.shadow_index > MAX_WAL_INDEX then
      .ok ⟨generation, db_mod_time, 0, wal_size, 0, some "max index exceeded", false⟩
    else if ¬ s.shadow_exists then
      .ok ⟨generation, db_mod_time, 0, wal_size, 0, some "no shadow wal", false⟩
    else
      let shadow_wal_size := align_frame page_size s.shadow.length
      if shadow_wal_size < WAL_HEADER_SIZE then
        .ok ⟨generation, db_mod_time, 0, wal_size, shadow_wal_size,
          some "short shadow wal", false⟩
      else if shadow_wal_size > wal_size then
        .ok ⟨generation, db_mod_time, 0, wal_size, shadow_wal_size,
          some "wal truncated by another process", false⟩
      else
        match wal_header_read s.wal with
        | .error e => .error e
        | .ok wal_header =>
          match wal_header_read s.shadow with
          | .error e => .error e
          | .ok shadow_wal_header =>
            let restart := wal_header ≠ shadow_wal_header
            if shadow_wal_size = WAL_HEADER_SIZE ∧ restart then
              .ok ⟨generation, db_mod_time, 0, wal_size, shadow_wal_size,
                some "wal header only, mismatched", restart⟩
            else if shadow_wal_size > WAL_HEADER_SIZE then
              let offset := shadow_wal_size - page_size - WAL_FRAME_HEADER_SIZE
              match wal_frame_read_at s.wal offset page_size with
              | .error e => .error e
              | .ok wal_last_frame =>
                match wal_frame_read_at s.shadow offset page_size with
                | .error e => .error e
                | .ok shadow_wal_last_frame =>
                  if wal_last_frame ≠ shadow_wal_last_frame then
                    .ok ⟨generation, db_mod_time, 0, wal_size, shadow_wal_size,
                      some "wal overwritten by another process", restart⟩
                  else
                    .ok ⟨generation, db_mod_time, 0, wal_size, shadow_wal_size,
                      none, restart⟩
            else
              .ok ⟨generation, db_mod_time, 0, wal_size, shadow_wal_size, none, restart⟩

/-- The WAL-policy numbers of a database entry, src/config/config.rs, plus the
page size the Database caches. -/
structure DbCfgM where
  page_size : Nat
  min_checkpoint_page_number : Nat
  max_checkpoint_page_number : Nat
  truncate_page_number : Nat
  checkpoint_interval_secs : Nat
deriving Repr

/-- CheckpointMode from src/sqlite/common.rs lines 23-29. -/
inductive CheckpointModeM where
  | passive
  | full
  | restart
  | truncate
deriving DecidableEq, Repr

/-- calc_wal_size from src/database/database.rs lines 334-336. -/
def calc_wal_size (cfg : DbCfgM) (n : Nat) : Nat :=
  WAL_HEADER_SIZE + (WAL_FRAME_HEADER_SIZE + cfg.page_size) * n

/-- decide_checkpoint_mode from src/database/database.rs lines 338-387, with
SystemTime::now() passed in as now and info.db_mod_time as an optional seconds
value; duration_since succeeds exactly when now is not earlier than the
modification time, and then as_secs is the difference. -/
def decide_checkpoint_mode (cfg : DbCfgM) (orig_wal_size new_wal_size : Nat)
    (db_mod_time : Option Nat) (now : Nat) : Option CheckpointModeM :=
  if cfg.truncate_page_number > 0 ∧
      orig_wal_size ≥ calc_wal_size cfg cfg.truncate_page_number then
    some .truncate
  else if cfg.max_checkpoint_page_number > 0 ∧
      new_wal_size ≥ calc_wal_size cfg cfg.max_checkpoint_page_number then
    some .restart
  else if new_wal_size ≥ calc_wal_size cfg cfg.min_checkpoint_page_number then
    some .passive
  else if cfg.checkpoint_interval_secs > 0 then
    match db_mod_time with
    | some t =>
      if now ≥ t then
        if now - t > cfg.checkpoint_interval_secs ∧
            new_wal_size > calc_wal_size cfg 1 then
          some .passive
        else none
      else none
    | none => none
  else none

/-- WalGenerationPos from src/database/database.rs lines 97-113, with the
generation as its 32-character rendering (empty for the nil generation). -/
structure WalGenerationPosM where
  generation : String
  index : Nat
  offset : Nat
deriving DecidableEq, Repr

/-- The empty position WalGenerationPos::default(). -/
def empty_pos : WalGenerationPosM := ⟨"", 0, 0⟩

/-- ReplicateCommand (SyncCommand in src/sync/replicate.rs lines 30-33). -/
inductive ReplicateCommandM where
  | dbChanged (pos : WalGenerationPosM)
  | snapshot (pos : WalGenerationPosM) (data : List Nat)
deriving DecidableEq, Repr

/-- The end-of-cycle notification step of Database::sync, src/database/
database.rs lines 436-442: when anything changed this cycle the source sends
DbChanged(position) on sync_notifiers[0] only.  Channels are modelled as the
lists of commands delivered to each replica worker, one list per configured
replica exactly as try_create builds them (lines 259-272); List.set leaves the
state unchanged on an out-of-range index, where the source would panic on an
empty replica list. -/
def notify_replicas (sync_notifiers : List (List ReplicateCommandM)) (changed : Bool)
    (pos : WalGenerationPosM) : List (List ReplicateCommandM) :=
  if changed then
    sync_notifiers.set 0 (sync_notifiers.getD 0 [] ++ [.dbChanged pos])
  else sync_notifiers

/-- RestoreOptions from src/config/arg.rs lines 24-42. -/
structure RestoreOptionsM where
  db : String
  output : String
  generation : String
  overwrite : Bool
deriving Repr

/-- The clobber gate at the top of Restore::run, src/sync/restore.rs lines
142-147: the run fails with OverwriteDbError whenever the output path exists.
The options are passed through untouched because the source never reads
options.overwrite here (no field of RestoreOptions is consulted by the
gate). -/
def restore_run_precheck (options : RestoreOptionsM) (output_exists : Bool) :
    Except ErrM Unit :=
  if output_exists then .error .overwriteDb else .ok ()

/-- Outcome of one Replicate::sync_wal call as observed by the loop in
Replicate::sync: success, an error with code UNEXPECTED_EOF_ERROR, or any
other error. -/
inductive SyncWalResM where
  | ok
  | eofErr
  | otherErr
deriving DecidableEq, Repr

/-- The segment-building loop of Replicate::sync, src/sync/replicate.rs lines
296-303: loop { if let Err(e) = self.sync_wal() { if e.code() == EOF { break } } }.
The i-th sync_wal call's outcome is outcomes i; the loop breaks only on an
EOF-coded error and continues both on success and on every other error, which
it discards.  fuel bounds the number of iterations; the value none means the
loop has not exited within fuel iterations. -/
def sync_wal_loop (outcomes : Nat → SyncWalResM) (i : Nat) : Nat → Option Unit
  | 0 => none
  | fuel + 1 =>
    match outcomes i with
    | .eofErr => some ()
    | _ => sync_wal_loop outcomes (i + 1) fuel

/-- Replicate::sync returns Ok(()) whenever its loop exits (line 304), so the
result delivered to Replicate::command carries no error from inside the loop. -/
def replicate_sync_from_loop (outcomes : Nat → SyncWalResM) (fuel : Nat) :
    Option (Except Unit Unit) :=
  (sync_wal_loop outcomes 0 fuel).map fun _ => Except.ok ()

/-- The DbChanged arm of Replicate::command, src/sync/replicate.rs lines
228-234: reset the cursor to the empty position exactly when sync returned an
error, otherwise keep the current cursor. -/
def command_db_changed (sync_result : Except Unit Unit)
    (position : WalGenerationPosM) : WalGenerationPosM :=
  match sync_result with
  | .error _ => empty_pos
  | .ok _ => position

/-- Error payloads of the two InvalidWalSegmentError messages issued by
StorageClient::restore_wal_segments_of (src/storage/storage_client.rs lines
231-258): wal segment out of order, and missing initial wal segment. -/
inductive SegErrM where
  | outOfOrder (index offset : Nat)
  | missingInitial (index offset : Nat)
deriving DecidableEq, Repr

/-- The sort comparator of restore_wal_segments_of (lines 215-222): first by
index, then by offset. -/
def lex_le (a b : Nat × Nat) : Bool :=
  decide (a.1 < b.1 ∨ (a.1 = b.1 ∧ a.2 ≤ b.2))

/-- BTreeMap::get on the assoc-list model of the offsets map. -/
def assoc_get (m : List (Nat × List Nat)) (k : Nat) : Option (List Nat) :=
  (m.find? fun g => g.1 == k).map fun g => g.2

/-- offsets.push(offset) through BTreeMap::get_mut: append to the entry of
key k. -/
def assoc_append (m : List (Nat × List Nat)) (k off : Nat) : List (Nat × List Nat) :=
  m.map fun g => if g.1 == k then (g.1, g.2 ++ [off]) else g

/-- BTreeMap::insert of a key not yet present: place it in ascending key
order. -/
def btree_insert (k : Nat) (offs : List Nat) :
    List (Nat × List Nat) → List (Nat × List Nat)
  | [] => [(k, offs)]
  | g :: rest => if k < g.1 then (k, offs) :: g :: rest else g :: btree_insert k offs rest

/-- The per-segment loop of restore_wal_segments_of (lines 226-259): skip
segments below the snapshot index; for a segment of a known index, fail with
the out-of-order error unless its offset strictly exceeds the last recorded
offset of that index, else push it; for a new index, fail with the
missing-initial error unless its offset is 0, else open its group. -/
def seg_loop (snapshot_index : Nat) :
    List (Nat × Nat) → List (Nat × List Nat) → Except SegErrM (List (Nat × List Nat))
  | [], m => .ok m
  | (index, offset) :: rest, m =>
    if index < snapshot_index then seg_loop snapshot_index rest m
    else
      match assoc_get m index with
      | some offsets =>
        if offsets.getLastD 0 ≥ offset then .error (.outOfOrder index offset)
        else seg_loop snapshot_index rest (assoc_append m index offset)
      | none =>
        if offset ≠ 0 then .error (.missingInitial index offset)
        else seg_loop snapshot_index rest (btree_insert index [offset] m)

/-- restore_wal_segments_of from src/storage/storage_client.rs lines 211-262:
sort the listed segments by (index, offset), run the validation loop starting
from an empty map, and return the map as an ordered assoc list.  A listed
segment is the pair (index, offset) parsed from its name. -/
def restore_wal_segments_of (snapshot_index : Nat) (segs : List (Nat × Nat)) :
    Except SegErrM (List (Nat × List Nat)) :=
  seg_loop snapshot_index (segs.mergeSort lex_le) []

/-- Specification-side grouping: collect consecutive runs of equal indices
into (index, offsets-in-order) groups; on an (index, offset)-sorted list this
is exactly group-by-index. -/
def group_by_index : List (Nat × Nat) → List (Nat × List Nat)
  | [] => []
  | (i, o) :: rest =>
    match group_by_index rest with
    | [] => [(i, [o])]
    | (j, offs) :: gs => if i = j then (i, o :: offs) :: gs else (i, [o]) :: (j, offs) :: gs

/-- All members strictly above prev and strictly increasing. -/
def strict_from (prev : Nat) : List Nat → Bool
  | [] => true
  | a :: rest => decide (prev < a) && strict_from a rest

/-- A strictly increasing offset list. -/
def strictly_increasing : List Nat → Bool
  | [] => true
  | a :: rest => strict_from a rest

/-- Specification-side validity of one index group: its first offset is 0 and
its offsets are strictly increasing. -/
def group_ok (g : Nat × List Nat) : Bool :=
  (g.2.head? == some 0) && strictly_increasing g.2

/-- Specification-side validity of a whole WAL segment plan. -/
def valid_groups (gs : List (Nat × List Nat)) : Bool := gs.all group_ok

/-- Big-endian 4-byte encoding of a 32-bit value, inverse of from_be_bytes_at. -/
def be32 (n : Nat) : List Nat :=
  [n / 16777216 % 256, n / 65536 % 256, n / 256 % 256, n % 256]

/-- The first 24 bytes of the test WAL header: big-endian magic, format
version 3007000, page size 1024, checkpoint sequence 0, salts 0x11 and 0x22. -/
def test_header_pre : List Nat :=
  [0x37, 0x7f, 0x06, 0x83] ++ be32 3007000 ++ be32 1024 ++ be32 0 ++ be32 0x11 ++ be32 0x22

/-- The header checksum pair of the test header, computed by the embedded
checksum from (0,0) as SQLite prescribes. -/
def test_header_ck : Nat × Nat := checksum test_header_pre 0 0 true

/-- A complete, valid 32-byte test WAL header. -/
def test_header : List Nat := test_header_pre ++ be32 test_header_ck.1 ++ be32 test_header_ck.2

/-- The checksum pair a frame with the given header fields and page carries
when its rolling state starts at (ck1, ck2). -/
def frame_ck (page_num db_size ck1 ck2 : Nat) (page : List Nat) : Nat × Nat :=
  let a := checksum (be32 page_num ++ be32 db_size) ck1 ck2 true
  checksum page a.1 a.2 true

/-- A 24+1024-byte test WAL frame: header fields big-endian, stored checksum
words equal to the rolling checksum continued from (ck1, ck2). -/
def mk_frame (page_num db_size salt1 salt2 ck1 ck2 : Nat) (page : List Nat) : List Nat :=
  let c := frame_ck page_num db_size ck1 ck2 page
  be32 page_num ++ be32 db_size ++ be32 salt1 ++ be32 salt2 ++ be32 c.1 ++ be32 c.2 ++ page

/-- A zero page of 1024 bytes. -/
def zero_page : List Nat := List.replicate 1024 0

/-- Commit frame 1 of the test WAL: page 1, db_size 1, salts of the header,
rolling checksum continued from the header checksum. -/
def test_frame1 : List Nat := mk_frame 1 1 0x11 0x22 test_header_ck.1 test_header_ck.2 zero_page

/-- The stored checksum pair of test_frame1. -/
def test_frame1_ck : Nat × Nat := frame_ck 1 1 test_header_ck.1 test_header_ck.2 zero_page

/-- Commit frame 2 of the genuine test WAL: page 2, db_size 2, salts of the
header, rolling checksum continued from test_frame1 exactly as SQLite writes
it. -/
def test_frame2_genuine : List Nat :=
  mk_frame 2 2 0x11 0x22 test_frame1_ck.1 test_frame1_ck.2 zero_page

/-- A non-commit trailing frame (db_size 0) whose stored checksum words equal
the fold of its bytes from the header checksum pair, which is precisely the
value copy_to_shadow_wal recomputes for every frame of one call. -/
def test_frame2_crafted : List Nat :=
  mk_frame 2 0 0x11 0x22 test_header_ck.1 test_header_ck.2 zero_page

/-- Live WAL for the idempotency scenario: header plus two genuine
single-frame committed transactions. -/
def wal_two_commits : List Nat := test_header ++ test_frame1 ++ test_frame2_genuine

/-- Live WAL for the truncation scenario: header, a committed frame, then a
validated but uncommitted trailing frame. -/
def wal_commit_then_tail : List Nat := test_header ++ test_frame1 ++ test_frame2_crafted

/-- Shadow WAL holding only the header. -/
def shadow_header_only : List Nat := test_header

/-- Shadow WAL holding the header and the first committed frame. -/
def shadow_one_frame : List Nat := test_header ++ test_frame1

/-- A healthy verifier state whose only peculiarity is that the current shadow
index equals MAX_WAL_INDEX: valid generation pointer, live WAL and shadow both
consisting of the same valid header. -/
def state_at_max_index : VerifyStateM :=
  { generation_file := some "0123456789abcdef0123456789abcdef"
    db_mod_time := some 0
    wal := test_header
    shadow_index := 0x7FFFFFFF
    shadow_exists := true
    shadow := test_header }

/-- The policy configuration with the documented defaults (src/config/config.rs):
min 1000, max 10000, truncate 500000, interval 60 seconds, page size 4096. -/
def default_cfg : DbCfgM :=
  { page_size := 4096
    min_checkpoint_page_number := 1000
    max_checkpoint_page_number := 10000
    truncate_page_number := 500000
    checkpoint_interval_secs := 60 }

/-- A non-empty replica cursor position used by the replica-worker theorems. -/
def test_pos : WalGenerationPosM := ⟨"0123456789abcdef0123456789abcdef", 0, 1080⟩

/-- Merging an open group (k, offs) into the groups of the remaining sorted
entries: offsets of a leading group with the same index continue the open
group, otherwise the open group closes in front. -/
def merge_cont (k : Nat) (offs : List Nat) (gs : List (Nat × List Nat)) :
    List (Nat × List Nat) :=
  match gs with
  | [] => [(k, offs)]
  | (j, os) :: rest => if j = k then (k, offs ++ os) :: rest else (k, offs) :: (j, os) :: rest

/-- Validity of the remaining groups as seen from an open group of index k
whose last recorded offset is last: offsets continuing the open group must
strictly increase from last, and every later group must start at 0 and
strictly increase. -/
def cont_ok (k last : Nat) (gs : List (Nat × List Nat)) : Bool :=
  match gs with
  | [] => true
  | (j, os) :: rest =>
    if j = k then strict_from last os && rest.all group_ok
    else ((j, os) :: rest).all group_ok

theorem checksum_eq_wal_checksum_spec (data : List Nat) (s1 s2 : Nat) (isBig : Bool) :
    checksum data s1 s2 isBig = wal_checksum_spec (word_pairs isBig data) (s1, s2) := by
  induction data, s1, s2, isBig using checksum.induct with
  | case1 b0 b1 b2 b3 b4 b5 b6 b7 rest s1 s2 isBig n1 n2 s1a s2a ih =>
    simp only [checksum, word_pairs, wal_checksum_spec, List.foldl]
    rw [ih]
    have hstep : wal_checksum_step (s1, s2) (word32 isBig b0 b1 b2 b3, word32 isBig b4 b5 b6 b7)
        = (((s1 + word32 isBig b0 b1 b2 b3) % u32Mod + s2) % u32Mod,
           ((s2 + word32 isBig b4 b5 b6 b7) % u32Mod
             + ((s1 + word32 isBig b0 b1 b2 b3) % u32Mod + s2) % u32Mod) % u32Mod) := by
      simp [wal_checksum_step, Nat.mod_add_mod]
    rw [hstep]
    rfl
  | case2 t s1 s2 isBig hne =>
    rcases t with _|⟨b0,_|⟨b1,_|⟨b2,_|⟨b3,_|⟨b4,_|⟨b5,_|⟨b6,_|⟨b7,rest⟩⟩⟩⟩⟩⟩⟩⟩ <;>
      first
        | rfl
        | exact absurd rfl (hne _ _ _ _ _ _ _ _ _)

theorem checksum_bounds (data : List Nat) (s1 s2 : Nat) (isBig : Bool)
    (h1 : s1 < u32Mod) (h2 : s2 < u32Mod) :
    (checksum data s1 s2 isBig).1 < u32Mod ∧ (checksum data s1 s2 isBig).2 < u32Mod := by
  induction data, s1, s2, isBig using checksum.induct with
  | case1 b0 b1 b2 b3 b4 b5 b6 b7 rest s1 s2 isBig n1 n2 s1a s2a ih =>
    simp only [checksum]
    exact ih (Nat.mod_lt _ (by norm_num [u32Mod])) (Nat.mod_lt _ (by norm_num [u32Mod]))
  | case2 t s1 s2 isBig hne =>
    rcases t with _|⟨b0,_|⟨b1,_|⟨b2,_|⟨b3,_|⟨b4,_|⟨b5,_|⟨b6,_|⟨b7,rest⟩⟩⟩⟩⟩⟩⟩⟩ <;>
      first
        | exact ⟨h1, h2⟩
        | exact absurd rfl (hne _ _ _ _ _ _ _ _ _)

/-- C8: For every 8-byte-aligned byte string and every initial u32 state
(s1, s2), checksum(bytes, s1, s2, big_endian) computes exactly the SQLite
rule: folding, for each successive 8-byte block read as two 32-bit words in
the given endianness, s1 to (s1 + word0 + s2) mod 2^32 and then s2 to
(s2 + word1 + s1) mod 2^32 with the updated s1; in particular the result
stays below 2^32, so the wrapping arithmetic never overflows. -/
theorem c8_checksum_follows_sqlite_rule (data : List Nat) (s1 s2 : Nat) (isBig : Bool)
    (hlen : data.length % 8 = 0) (h1 : s1 < u32Mod) (h2 : s2 < u32Mod) :
    checksum data s1 s2 isBig = wal_checksum_spec (word_pairs isBig data) (s1, s2) ∧
    (checksum data s1 s2 isBig).1 < u32Mod ∧ (checksum data s1 s2 isBig).2 < u32Mod :=
  ⟨checksum_eq_wal_checksum_spec data s1 s2 isBig, checksum_bounds data s1 s2 isBig h1 h2⟩

/-- Witness for C8 at a concrete 16-byte input and state (3, 4), little
endian. -/
theorem c8_checksum_witness :
    ([1, 2, 3, 4, 5, 6, 7, 8, 9, 10, 11, 12, 13, 14, 15, 16] : List Nat).length % 8 = 0 ∧
    3 < u32Mod ∧ 4 < u32Mod ∧
    (checksum [1, 2, 3, 4, 5, 6, 7, 8, 9, 10, 11, 12, 13, 14, 15, 16] 3 4 false =
        wal_checksum_spec
          (word_pairs false [1, 2, 3, 4, 5, 6, 7, 8, 9, 10, 11, 12, 13, 14, 15, 16]) (3, 4) ∧
      (checksum [1, 2, 3, 4, 5, 6, 7, 8, 9, 10, 11, 12, 13, 14, 15, 16] 3 4 false).1 < u32Mod ∧
      (checksum [1, 2, 3, 4, 5, 6, 7, 8, 9, 10, 11, 12, 13, 14, 15, 16] 3 4 false).2 < u32Mod) :=
  ⟨by decide, by decide, by decide,
    c8_checksum_follows_sqlite_rule _ 3 4 false (by decide) (by decide) (by decide)⟩

theorem align_frame_of_lt (page_size offset : Nat) (h : offset < 32) :
    align_frame page_size offset = 0 := by
  simp only [align_frame, WAL_HEADER_SIZE]
  rw [if_pos h]

theorem align_frame_of_le (page_size offset : Nat) (h : 32 ≤ offset) :
    align_frame page_size offset = (offset - 32) / (24 + page_size) * (24 + page_size) + 32 := by
  simp only [align_frame, WAL_HEADER_SIZE, WAL_FRAME_HEADER_SIZE]
  rw [if_neg (by omega)]

/-- C10: For every page_size above 0 and every offset, align_frame returns 0
when offset is below the 32-byte header, and otherwise 32 + k(24 + page_size)
with k the number of whole frames fitting in offset - 32; consequently it
never exceeds offset (for offset at least 32) and is idempotent. -/
theorem c10_align_frame_spec (page_size offset : Nat) (hps : 0 < page_size) :
    (offset < 32 → align_frame page_size offset = 0) ∧
    (32 ≤ offset → align_frame page_size offset
      = 32 + (offset - 32) / (24 + page_size) * (24 + page_size)) ∧
    (32 ≤ offset → align_frame page_size offset ≤ offset) ∧
    align_frame page_size (align_frame page_size offset) = align_frame page_size offset := by
  refine ⟨fun h => align_frame_of_lt page_size offset h, fun h => ?_, fun h => ?_, ?_⟩
  · rw [align_frame_of_le page_size offset h]
    ring
  · rw [align_frame_of_le page_size offset h]
    have hd := Nat.div_mul_le_self (offset - 32) (24 + page_size)
    omega
  · by_cases h : offset < 32
    · rw [align_frame_of_lt page_size offset h, align_frame_of_lt page_size 0 (by norm_num)]
    · push_neg at h
      rw [align_frame_of_le page_size offset h,
        align_frame_of_le page_size _ (Nat.le_add_left 32 _)]
      rw [Nat.add_sub_cancel, Nat.mul_div_cancel _ (by omega : 0 < 24 + page_size)]

/-- Witness for C10 at page size 4096 and offset 4152. -/
theorem c10_align_frame_witness :
    0 < 4096 ∧
    ((4152 < 32 → align_frame 4096 4152 = 0) ∧
     (32 ≤ 4152 → align_frame 4096 4152 = 32 + (4152 - 32) / (24 + 4096) * (24 + 4096)) ∧
     (32 ≤ 4152 → align_frame 4096 4152 ≤ 4152) ∧
     align_frame 4096 (align_frame 4096 4152) = align_frame 4096 4152) :=
  ⟨by decide, c10_align_frame_spec 4096 4152 (by decide)⟩

/-- C2: code evaluation.  With two configured replicas and a changed cycle,
the notification step of Database::sync delivers DbChanged only to the first
replica channel; the second channel stays empty, although the source builds
one command channel per replica. -/
theorem c2_dbchanged_only_first_replica :
    notify_replicas [[], []] true test_pos = [[.dbChanged test_pos], []] ∧
    (notify_replicas [[], []] true test_pos).getD 1 [] = [] := by
  constructor
  · rfl
  · rfl

/-- C4: code evaluation.  A healthy state whose shadow index equals
MAX_WAL_INDEX = 0x7FFFFFFF makes the verifier return a SyncInfo with no
reason (in particular not the reason max index exceeded), because the source
check is index strictly greater than MAX_WAL_INDEX. -/
theorem c4_verify_no_rotation_at_max_index :
    state_at_max_index.shadow_index = MAX_WAL_INDEX ∧
    verify_model 1024 state_at_max_index =
      .ok ⟨"0123456789abcdef0123456789abcdef", some 0, 0, 32, 32, none, false⟩ := by
  constructor
  · rfl
  · rfl

/-- C6: code evaluation.  The clobber gate of Restore::run rejects an existing
output file even when the overwrite option is true, and rejects it when the
option is false; a missing output passes.  The options record differs only in
the overwrite field. -/
theorem c6_restore_ignores_overwrite :
    restore_run_precheck ⟨"/tmp/a.db", "/tmp/b.db", "", true⟩ true = .error .overwriteDb ∧
    restore_run_precheck ⟨"/tmp/a.db", "/tmp/b.db", "", false⟩ true = .error .overwriteDb ∧
    restore_run_precheck ⟨"/tmp/a.db", "/tmp/b.db", "", true⟩ false = .ok () := by
  exact ⟨rfl, rfl, rfl⟩

/-- C7: code evaluation.  First, when every sync_wal attempt fails with an
error that is not UnexpectedEof, the segment-building loop of Replicate::sync
never exits, for any number of iterations.  Second, when the loop does exit
(here: one non-EOF error followed by UnexpectedEof), Replicate::sync reports
success, so the DbChanged arm of Replicate::command keeps the current cursor
instead of resetting it to the empty position. -/
theorem c7_sync_loop_swallows_errors :
    (∀ fuel, sync_wal_loop (fun _ => .otherErr) 0 fuel = none) ∧
    replicate_sync_from_loop (fun i => if i = 0 then .otherErr else .eofErr) 5 =
      some (.ok ()) ∧
    command_db_changed (.ok ()) test_pos = test_pos ∧
    test_pos ≠ empty_pos := by
  refine ⟨?_, rfl, rfl, by decide⟩
  have h : ∀ fuel i, sync_wal_loop (fun _ => SyncWalResM.otherErr) i fuel = none := by
    intro fuel
    induction fuel with
    | zero => intro i; rfl
    | succ n ih => intro i; simpa [sync_wal_loop] using ih (i + 1)
  exact fun fuel => h fuel 0

/-- C5: counterexample.  With the default policy configuration, a WAL of
exactly one frame (new_wal_size = calc_wal_size(1) = 4152 at page size 4096)
and a database modification time 100 seconds in the past, the claim prescribes
a time-based PASSIVE checkpoint (now - mtime = 100 exceeds the 60-second
interval and new_wal_size is at least calc_wal_size(1)), but the code decides
no checkpoint, because its test is the strict new_wal_size > calc_wal_size(1);
the three earlier thresholds are far from reached. -/
theorem c5_counterexample :
    decide_checkpoint_mode default_cfg 4152 4152 (some 0) 100 = none ∧
    calc_wal_size default_cfg 1 = 4152 ∧
    100 - 0 > default_cfg.checkpoint_interval_secs ∧
    4152 ≥ calc_wal_size default_cfg 1 ∧
    ¬ 4152 ≥ calc_wal_size default_cfg default_cfg.min_checkpoint_page_number ∧
    ¬ 4152 ≥ calc_wal_size default_cfg default_cfg.max_checkpoint_page_number ∧
    ¬ 4152 ≥ calc_wal_size default_cfg default_cfg.truncate_page_number := by
  refine ⟨by decide, by decide, by decide, by decide, by decide, by decide, by decide⟩

theorem copy_loop_eof (isBig : Bool) (hs1 hs2 ck1 ck2 ps : Nat) (fuel : Nat)
    (rest acc : List Nat) (off lc : Nat)
    (h : rest.length < WAL_FRAME_HEADER_SIZE + ps) :
    copy_loop isBig hs1 hs2 ck1 ck2 ps fuel rest off lc acc = (acc, lc) := by
  cases fuel with
  | zero => rfl
  | succ n =>
    simp only [copy_loop]
    rw [if_pos h]

theorem copy_loop_pass (isBig : Bool) (hs1 hs2 ck1 ck2 ps : Nat) (fuel : Nat)
    (f r acc : List Nat) (off lc : Nat)
    (hflen : f.length = WAL_FRAME_HEADER_SIZE + ps)
    (hsalt : ¬ (from_be_bytes_at f 8 ≠ hs1 ∨ from_be_bytes_at f 12 ≠ hs2))
    (hcksum : ¬ ((checksum (f.drop 24) (checksum (f.take 8) ck1 ck2 isBig).1
        (checksum (f.take 8) ck1 ck2 isBig).2 isBig).1 ≠ from_be_bytes_at f 16 ∨
      (checksum (f.drop 24) (checksum (f.take 8) ck1 ck2 isBig).1
        (checksum (f.take 8) ck1 ck2 isBig).2 isBig).2 ≠ from_be_bytes_at f 20)) :
    copy_loop isBig hs1 hs2 ck1 ck2 ps (fuel + 1) (f ++ r) off lc acc =
      copy_loop isBig hs1 hs2 ck1 ck2 ps fuel r (off + (WAL_FRAME_HEADER_SIZE + ps))
        (if from_be_bytes_at f 4 ≠ 0 then off + (WAL_FRAME_HEADER_SIZE + ps) else lc)
        (acc ++ f) := by
  have hlen2 : ¬ (f ++ r).length < WAL_FRAME_HEADER_SIZE + ps := by
    rw [List.length_append, hflen]
    omega
  simp only [copy_loop]
  rw [if_neg hlen2, List.take_left' hflen, List.drop_left' hflen, if_neg hsalt, if_neg hcksum]

theorem copy_loop_break_cksum (isBig : Bool) (hs1 hs2 ck1 ck2 ps : Nat) (fuel : Nat)
    (f r acc : List Nat) (off lc : Nat)
    (hflen : f.length = WAL_FRAME_HEADER_SIZE + ps)
    (hsalt : ¬ (from_be_bytes_at f 8 ≠ hs1 ∨ from_be_bytes_at f 12 ≠ hs2))
    (hcksum : (checksum (f.drop 24) (checksum (f.take 8) ck1 ck2 isBig).1
        (checksum (f.take 8) ck1 ck2 isBig).2 isBig).1 ≠ from_be_bytes_at f 16 ∨
      (checksum (f.drop 24) (checksum (f.take 8) ck1 ck2 isBig).1
        (checksum (f.take 8) ck1 ck2 isBig).2 isBig).2 ≠ from_be_bytes_at f 20) :
    copy_loop isBig hs1 hs2 ck1 ck2 ps (fuel + 1) (f ++ r) off lc acc = (acc, lc) := by
  have hlen2 : ¬ (f ++ r).length < WAL_FRAME_HEADER_SIZE + ps := by
    rw [List.length_append, hflen]
    omega
  simp only [copy_loop]
  rw [if_neg hlen2, List.take_left' hflen, List.drop_left' hflen, if_neg hsalt, if_pos hcksum]

set_option maxRecDepth 8192 in
theorem test_header_len : test_header.length = 32 := by decide

set_option maxRecDepth 8192 in
theorem test_frame1_len : test_frame1.length = WAL_FRAME_HEADER_SIZE + 1024 := by decide

set_option maxRecDepth 8192 in
theorem test_frame2_crafted_len : test_frame2_crafted.length = WAL_FRAME_HEADER_SIZE + 1024 := by
  decide

set_option maxRecDepth 8192 in
theorem test_frame2_genuine_len : test_frame2_genuine.length = WAL_FRAME_HEADER_SIZE + 1024 := by
  decide

set_option maxRecDepth 8192 in
theorem copy_crafted_tail_eval :
    copy_to_shadow_wal 1024 wal_commit_then_tail shadow_header_only =
      .ok ⟨shadow_header_only ++ test_frame1 ++ test_frame2_crafted, 2128, 1080⟩ := by
  have hH : wal_header_read shadow_header_only = Except.ok ⟨test_header, 0x11, 0x22, 1024, true⟩ := by
    rfl
  have hC : read_last_checksum shadow_header_only 1024 = Except.ok test_header_ck := by rfl
  have hsl : shadow_header_only.length = 32 := by decide
  have ha32 : align_frame 1024 (32 : Nat) = 32 := by decide
  have hwlen : wal_commit_then_tail.length = 2128 := by
    simp [wal_commit_then_tail, List.length_append, test_header_len, test_frame1_len,
      test_frame2_crafted_len, WAL_FRAME_HEADER_SIZE]
  have hwalign : align_frame 1024 (2128 : Nat) = 2128 := by decide
  have hassoc : wal_commit_then_tail = test_header ++ (test_frame1 ++ test_frame2_crafted) := by
    simp [wal_commit_then_tail, List.append_assoc]
  simp only [copy_to_shadow_wal, hH, hC, hsl, ha32, hwlen, hwalign]
  rw [hassoc, List.drop_left' test_header_len]
  rw [copy_loop_pass true 0x11 0x22 test_header_ck.1 test_header_ck.2 1024 _
    test_frame1 test_frame2_crafted [] 32 32 test_frame1_len (by decide) (by decide)]
  rw [show (test_frame1 ++ test_frame2_crafted).length = 2095 + 1 by
    rw [List.length_append, test_frame1_len, test_frame2_crafted_len]
    decide]
  rw [show test_frame2_crafted = test_frame2_crafted ++ [] from (List.append_nil _).symm]
  rw [copy_loop_pass true 0x11 0x22 test_header_ck.1 test_header_ck.2 1024 2095
    test_frame2_crafted [] _ _ _ test_frame2_crafted_len (by decide) (by decide)]
  rw [copy_loop_eof true 0x11 0x22 test_header_ck.1 test_header_ck.2 1024 2095 [] _ _ _
    (by decide)]
  rw [if_pos (show from_be_bytes_at test_frame1 4 ≠ 0 by decide)]
  rw [if_neg (show ¬ from_be_bytes_at test_frame2_crafted 4 ≠ 0 by decide)]
  rw [if_neg (show ¬ (32 + (WAL_FRAME_HEADER_SIZE + 1024) = 32) by decide)]
  simp [List.nil_append, List.append_assoc, List.append_nil, WAL_FRAME_HEADER_SIZE]

set_option maxRecDepth 8192 in
theorem copy_two_commits_first_eval :
    copy_to_shadow_wal 1024 wal_two_commits shadow_header_only =
      .ok ⟨shadow_one_frame, 2128, 1080⟩ := by
  have hH : wal_header_read shadow_header_only = Except.ok ⟨test_header, 0x11, 0x22, 1024, true⟩ := by
    rfl
  have hC : read_last_checksum shadow_header_only 1024 = Except.ok test_header_ck := by rfl
  have hsl : shadow_header_only.length = 32 := by decide
  have ha32 : align_frame 1024 (32 : Nat) = 32 := by decide
  have hwlen : wal_two_commits.length = 2128 := by
    simp [wal_two_commits, List.length_append, test_header_len, test_frame1_len,
      test_frame2_genuine_len, WAL_FRAME_HEADER_SIZE]
  have hwalign : align_frame 1024 (2128 : Nat) = 2128 := by decide
  have hassoc : wal_two_commits = test_header ++ (test_frame1 ++ test_frame2_genuine) := by
    simp [wal_two_commits, List.append_assoc]
  simp only [copy_to_shadow_wal, hH, hC, hsl, ha32, hwlen, hwalign]
  rw [hassoc, List.drop_left' test_header_len]
  rw [copy_loop_pass true 0x11 0x22 test_header_ck.1 test_header_ck.2 1024 _
    test_frame1 test_frame2_genuine [] 32 32 test_frame1_len (by decide) (by decide)]
  rw [show (test_frame1 ++ test_frame2_genuine).length = 2095 + 1 by
    rw [List.length_append, test_frame1_len, test_frame2_genuine_len]
    decide]
  rw [show test_frame2_genuine = test_frame2_genuine ++ [] from (List.append_nil _).symm]
  rw [copy_loop_break_cksum true 0x11 0x22 test_header_ck.1 test_header_ck.2 1024 2095
    test_frame2_genuine [] _ _ _ test_frame2_genuine_len (by decide) (by decide)]
  rw [if_pos (show from_be_bytes_at test_frame1 4 ≠ 0 by decide)]
  rw [if_neg (show ¬ (32 + (WAL_FRAME_HEADER_SIZE + 1024) = 32) by decide)]
  simp [shadow_one_frame, shadow_header_only, List.nil_append, WAL_FRAME_HEADER_SIZE]

set_option maxRecDepth 8192 in
theorem copy_two_commits_second_eval :
    copy_to_shadow_wal 1024 wal_two_commits shadow_one_frame =
      .ok ⟨shadow_one_frame ++ test_frame2_genuine, 2128, 2128⟩ := by
  have hH : wal_header_read shadow_one_frame = Except.ok ⟨test_header, 0x11, 0x22, 1024, true⟩ := by
    rfl
  have hC : read_last_checksum shadow_one_frame 1024 = Except.ok test_frame1_ck := by rfl
  have hsl : shadow_one_frame.length = 1080 := by decide
  have ha1080 : align_frame 1024 (1080 : Nat) = 1080 := by decide
  have hwlen : wal_two_commits.length = 2128 := by
    simp [wal_two_commits, List.length_append, test_header_len, test_frame1_len,
      test_frame2_genuine_len, WAL_FRAME_HEADER_SIZE]
  have hwalign : align_frame 1024 (2128 : Nat) = 2128 := by decide
  have hassoc : wal_two_commits = shadow_one_frame ++ test_frame2_genuine := by rfl
  simp only [copy_to_shadow_wal, hH, hC, hsl, ha1080, hwlen, hwalign]
  rw [hassoc, List.drop_left' hsl]
  rw [show test_frame2_genuine = test_frame2_genuine ++ [] from (List.append_nil _).symm]
  rw [copy_loop_pass true 0x11 0x22 test_frame1_ck.1 test_frame1_ck.2 1024 _
    test_frame2_genuine [] [] 1080 1080 test_frame2_genuine_len (by decide) (by decide)]
  rw [copy_loop_eof true 0x11 0x22 test_frame1_ck.1 test_frame1_ck.2 1024 _ [] _ _ _
    (by decide)]
  rw [if_pos (show from_be_bytes_at test_frame2_genuine 4 ≠ 0 by decide)]
  rw [if_neg (show ¬ (1080 + (WAL_FRAME_HEADER_SIZE + 1024) = 1080) by decide)]
  simp [List.nil_append, WAL_FRAME_HEADER_SIZE]

/-- C1: code evaluation.  On a shadow holding only the header and a live WAL
holding one committed frame followed by a frame that passes the salt and
checksum validation of copy_to_shadow_wal but has db_size 0 (no commit), the
call succeeds, reports new_size 1080 (the offset just past the last commit
frame), yet appends the whole scratch buffer: the shadow file ends at 2128
bytes, one validated-but-uncommitted trailing frame past the last commit
frame, because the source never truncates the scratch buffer. -/
theorem c1_copy_appends_uncommitted_tail :
    copy_to_shadow_wal 1024 wal_commit_then_tail shadow_header_only =
      .ok ⟨shadow_header_only ++ test_frame1 ++ test_frame2_crafted, 2128, 1080⟩ ∧
    (shadow_header_only ++ test_frame1 ++ test_frame2_crafted).length = 2128 ∧
    from_be_bytes_at test_frame2_crafted 4 = 0 ∧
    (2128 : Nat) ≠ 1080 := by
  refine ⟨copy_crafted_tail_eval, ?_, by decide, by decide⟩
  simp [shadow_header_only, List.length_append, test_header_len, test_frame1_len,
    test_frame2_crafted_len, WAL_FRAME_HEADER_SIZE]

set_option maxRecDepth 8192 in
/-- C9: code evaluation.  The live WAL carries two genuine consecutive
single-frame committed transactions (the second frame's stored checksum is the
rolling continuation from the first frame).  The first sync copies only the
first frame: its checksum state restarts from the shadow header pair on every
frame, so the second frame fails validation and the call stops at new_size
1080.  With no WAL writes in between, the second sync is not a no-op: it
validates and appends the second frame, returning new_size 2128 instead of the
aligned original shadow size 1080. -/
theorem c9_second_sync_appends :
    copy_to_shadow_wal 1024 wal_two_commits shadow_header_only =
      .ok ⟨shadow_one_frame, 2128, 1080⟩ ∧
    align_frame 1024 shadow_one_frame.length = 1080 ∧
    copy_to_shadow_wal 1024 wal_two_commits shadow_one_frame =
      .ok ⟨shadow_one_frame ++ test_frame2_genuine, 2128, 2128⟩ ∧
    (2128 : Nat) ≠ 1080 := by
  refine ⟨copy_two_commits_first_eval, ?_, copy_two_commits_second_eval, by decide⟩
  have hsl : shadow_one_frame.length = 1080 := by decide
  rw [hsl]
  decide

/-- C5: the checkpoint policy as amended.  When the three policy knobs
truncate_page_number, max_checkpoint_page_number and checkpoint_interval_secs
are positive (a zero value disables its branch in the source) and a
modification time is known, the policy evaluates in order: TRUNCATE when
orig_wal_size reaches calc_wal_size(truncate_page_number); else RESTART when
new_wal_size reaches calc_wal_size(max_checkpoint_page_number); else PASSIVE
when new_wal_size reaches calc_wal_size(min_checkpoint_page_number); else
PASSIVE when now - db_mod_time exceeds the interval and new_wal_size strictly
exceeds calc_wal_size(1) (strictly more than one frame, not at least one);
otherwise no checkpoint. -/
theorem c5_checkpoint_policy_amended (cfg : DbCfgM) (orig_wal_size new_wal_size t now : Nat)
    (htr : 0 < cfg.truncate_page_number) (hmax : 0 < cfg.max_checkpoint_page_number)
    (hint : 0 < cfg.checkpoint_interval_secs) :
    decide_checkpoint_mode cfg orig_wal_size new_wal_size (some t) now =
      if calc_wal_size cfg cfg.truncate_page_number ≤ orig_wal_size then some .truncate
      else if calc_wal_size cfg cfg.max_checkpoint_page_number ≤ new_wal_size then some .restart
      else if calc_wal_size cfg cfg.min_checkpoint_page_number ≤ new_wal_size then some .passive
      else if cfg.checkpoint_interval_secs < now - t ∧ calc_wal_size cfg 1 < new_wal_size then
        some .passive
      else none := by
  show (if cfg.truncate_page_number > 0 ∧
      orig_wal_size ≥ calc_wal_size cfg cfg.truncate_page_number then some CheckpointModeM.truncate
    else if cfg.max_checkpoint_page_number > 0 ∧
        new_wal_size ≥ calc_wal_size cfg cfg.max_checkpoint_page_number then
      some CheckpointModeM.restart
    else if new_wal_size ≥ calc_wal_size cfg cfg.min_checkpoint_page_number then
      some CheckpointModeM.passive
    else if cfg.checkpoint_interval_secs > 0 then
      if now ≥ t then
        if now - t > cfg.checkpoint_interval_secs ∧ new_wal_size > calc_wal_size cfg 1 then
          some CheckpointModeM.passive
        else none
      else none
    else none) = _
  split_ifs with h1 h2 h3 h4 h5 h6 <;>
    first
      | rfl
      | omega

/-- Witness for C5 at the default configuration, one-frame WAL sizes,
modification time 0 and now 100. -/
theorem c5_checkpoint_policy_amended_witness :
    0 < default_cfg.truncate_page_number ∧
    0 < default_cfg.max_checkpoint_page_number ∧
    0 < default_cfg.checkpoint_interval_secs ∧
    decide_checkpoint_mode default_cfg 4152 4152 (some 0) 100 =
      (if calc_wal_size default_cfg default_cfg.truncate_page_number ≤ 4152 then
        some CheckpointModeM.truncate
      else if calc_wal_size default_cfg default_cfg.max_checkpoint_page_number ≤ 4152 then
        some CheckpointModeM.restart
      else if calc_wal_size default_cfg default_cfg.min_checkpoint_page_number ≤ 4152 then
        some CheckpointModeM.passive
      else if default_cfg.checkpoint_interval_secs < 100 - 0 ∧ calc_wal_size default_cfg 1 < 4152 then
        some CheckpointModeM.passive
      else none) :=
  ⟨by decide, by decide, by decide,
    c5_checkpoint_policy_amended default_cfg 4152 4152 0 100 (by decide) (by decide) (by decide)⟩

theorem lex_le_trans : ∀ a b c : Nat × Nat, lex_le a b → lex_le b c → lex_le a c := by
  intro a b c hab hbc
  simp only [lex_le, decide_eq_true_eq] at *
  omega

theorem lex_le_total : ∀ a b : Nat × Nat, lex_le a b || lex_le b a := by
  intro a b
  simp only [lex_le, Bool.or_eq_true, decide_eq_true_eq]
  omega

theorem lex_le_fst {a b : Nat × Nat} (h : lex_le a b) : a.1 ≤ b.1 := by
  simp only [lex_le, decide_eq_true_eq] at h
  omega

theorem assoc_get_snoc (m0 : List (Nat × List Nat)) (k : Nat) (offs : List Nat) (i : Nat)
    (hlt : ∀ g ∈ m0, g.1 < k) (hik : k ≤ i) :
    assoc_get (m0 ++ [(k, offs)]) i = if i = k then some offs else none := by
  induction m0 with
  | nil =>
    by_cases h : i = k
    · subst h
      simp [assoc_get, List.find?]
    · have hf : (k == i) = false := beq_eq_false_iff_ne.mpr (Ne.symm h)
      simp [assoc_get, List.find?, hf, h]
  | cons g m0 ih =>
    have hg : g.1 < k := hlt g (List.mem_cons_self g m0)
    have hf : (g.1 == i) = false := beq_eq_false_iff_ne.mpr (by omega)
    simp only [List.cons_append, assoc_get, List.find?, hf]
    exact ih fun g hg2 => hlt g (List.mem_cons_of_mem _ hg2)

theorem assoc_append_snoc (m0 : List (Nat × List Nat)) (k : Nat) (offs : List Nat) (o : Nat)
    (hlt : ∀ g ∈ m0, g.1 < k) :
    assoc_append (m0 ++ [(k, offs)]) k o = m0 ++ [(k, offs ++ [o])] := by
  induction m0 with
  | nil => simp [assoc_append]
  | cons g m0 ih =>
    have hg : g.1 < k := hlt g (List.mem_cons_self g m0)
    have hf : (g.1 == k) = false := beq_eq_false_iff_ne.mpr (by omega)
    simp only [List.cons_append, assoc_append, List.map, hf, Bool.false_eq_true, if_false,
      List.append_eq]
    have := ih fun g hg2 => hlt g (List.mem_cons_of_mem _ hg2)
    simp only [assoc_append] at this
    rw [this]

theorem btree_insert_snoc (m : List (Nat × List Nat)) (i : Nat) (offs : List Nat)
    (h : ∀ g ∈ m, g.1 < i) : btree_insert i offs m = m ++ [(i, offs)] := by
  induction m with
  | nil => rfl
  | cons g m ih =>
    have hg : g.1 < i := h g (List.mem_cons_self g m)
    simp only [btree_insert]
    rw [if_neg (by omega)]
    rw [ih fun g hg2 => h g (List.mem_cons_of_mem _ hg2)]
    rfl

theorem group_by_index_cons (i o : Nat) (rest : List (Nat × Nat)) :
    group_by_index ((i, o) :: rest) =
      match group_by_index rest with
      | [] => [(i, [o])]
      | (j, offs) :: gs => if i = j then (i, o :: offs) :: gs else (i, [o]) :: (j, offs) :: gs :=
  rfl

theorem group_by_index_cons_shape (i o : Nat) (rest : List (Nat × Nat)) :
    ∃ os gs2, group_by_index ((i, o) :: rest) = (i, o :: os) :: gs2 := by
  rcases hgr : group_by_index rest with _ | ⟨⟨j, os⟩, gs2⟩
  · exact ⟨[], [], by rw [group_by_index_cons, hgr]⟩
  · by_cases hj : i = j
    · subst hj
      exact ⟨os, gs2, by rw [group_by_index_cons, hgr]; simp⟩
    · exact ⟨[], (j, os) :: gs2, by rw [group_by_index_cons, hgr]; simp [hj]⟩

theorem merge_cont_absorb (i : Nat) (offs : List Nat) (o : Nat) (rest : List (Nat × Nat)) :
    merge_cont i offs (group_by_index ((i, o) :: rest)) =
      merge_cont i (offs ++ [o]) (group_by_index rest) := by
  rcases hgr : group_by_index rest with _ | ⟨⟨j, os⟩, gs2⟩
  · rw [group_by_index_cons, hgr]
    simp [merge_cont]
  · by_cases hj : i = j
    · subst hj
      rw [group_by_index_cons, hgr]
      simp [merge_cont, List.append_assoc]
    · have hj2 : ¬ j = i := Ne.symm hj
      rw [group_by_index_cons, hgr]
      simp [merge_cont, hj, hj2]

theorem cont_ok_absorb (i : Nat) (offs : List Nat) (o : Nat) (rest : List (Nat × Nat))
    (hlt : offs.getLastD 0 < o) :
    cont_ok i (offs.getLastD 0) (group_by_index ((i, o) :: rest)) =
      cont_ok i ((offs ++ [o]).getLastD 0) (group_by_index rest) := by
  rw [List.getLastD_concat]
  generalize hgen : offs.getLastD 0 = last at hlt ⊢
  rcases hgr : group_by_index rest with _ | ⟨⟨j, os⟩, gs2⟩
  · rw [group_by_index_cons, hgr]
    simp [cont_ok, strict_from, hlt]
  · by_cases hj : i = j
    · subst hj
      rw [group_by_index_cons, hgr]
      simp [cont_ok, strict_from, hlt, Bool.and_assoc]
    · have hj2 : ¬ j = i := Ne.symm hj
      rw [group_by_index_cons, hgr]
      simp [cont_ok, strict_from, hlt, hj, hj2]

theorem cont_ok_err (i last o : Nat) (rest : List (Nat × Nat)) (hge : o ≤ last) :
    cont_ok i last (group_by_index ((i, o) :: rest)) = false := by
  obtain ⟨os, gs2, hshape⟩ := group_by_index_cons_shape i o rest
  rw [hshape]
  simp [cont_ok, strict_from]
  omega

theorem merge_cont_new (k : Nat) (offs : List Nat) (i o : Nat) (rest : List (Nat × Nat))
    (hki : k ≠ i) :
    merge_cont k offs (group_by_index ((i, o) :: rest)) =
      (k, offs) :: group_by_index ((i, o) :: rest) := by
  obtain ⟨os, gs2, hshape⟩ := group_by_index_cons_shape i o rest
  rw [hshape]
  simp [merge_cont, Ne.symm hki]

theorem cont_ok_new (k last i : Nat) (rest : List (Nat × Nat)) (hki : k ≠ i) :
    cont_ok k last (group_by_index ((i, 0) :: rest)) = cont_ok i 0 (group_by_index rest) := by
  have hik : ¬ i = k := fun h => hki h.symm
  rcases hgr : group_by_index rest with _ | ⟨⟨j, os⟩, gs2⟩
  · rw [group_by_index_cons, hgr]
    simp [cont_ok, hik, group_ok, strictly_increasing, strict_from]
  · by_cases hj : i = j
    · subst hj
      rw [group_by_index_cons, hgr]
      simp [cont_ok, hik, group_ok, strictly_increasing]
    · have hj2 : ¬ j = i := Ne.symm hj
      have hjk : ¬ j = k ∨ True := Or.inr trivial
      rw [group_by_index_cons, hgr]
      simp [cont_ok, hik, hj, hj2, group_ok, strictly_increasing, strict_from]

theorem cont_ok_new_err (k last i o : Nat) (rest : List (Nat × Nat)) (hki : k ≠ i)
    (ho : o ≠ 0) :
    cont_ok k last (group_by_index ((i, o) :: rest)) = false := by
  obtain ⟨os, gs2, hshape⟩ := group_by_index_cons_shape i o rest
  rw [hshape]
  simp [cont_ok, Ne.symm hki, group_ok, ho]

theorem valid_groups_cons_zero (i : Nat) (rest : List (Nat × Nat)) :
    valid_groups (group_by_index ((i, 0) :: rest)) = cont_ok i 0 (group_by_index rest) := by
  rcases hgr : group_by_index rest with _ | ⟨⟨j, os⟩, gs2⟩
  · rw [group_by_index_cons, hgr]
    simp [valid_groups, cont_ok, group_ok, strictly_increasing, strict_from]
  · by_cases hj : i = j
    · subst hj
      rw [group_by_index_cons, hgr]
      simp [valid_groups, cont_ok, group_ok, strictly_increasing]
    · have hj2 : ¬ j = i := Ne.symm hj
      rw [group_by_index_cons, hgr]
      simp [valid_groups, cont_ok, group_ok, strictly_increasing, strict_from, hj, hj2]

theorem valid_groups_cons_err (i o : Nat) (rest : List (Nat × Nat)) (ho : o ≠ 0) :
    valid_groups (group_by_index ((i, o) :: rest)) = false := by
  obtain ⟨os, gs2, hshape⟩ := group_by_index_cons_shape i o rest
  rw [hshape]
  simp [valid_groups, group_ok, ho]

theorem merge_cont_zero (i : Nat) (rest : List (Nat × Nat)) :
    merge_cont i [0] (group_by_index rest) = group_by_index ((i, 0) :: rest) := by
  rcases hgr : group_by_index rest with _ | ⟨⟨j, os⟩, gs2⟩
  · rw [group_by_index_cons, hgr]
    simp [merge_cont]
  · by_cases hj : i = j
    · subst hj
      rw [group_by_index_cons, hgr]
      simp [merge_cont]
    · have hj2 : ¬ j = i := Ne.symm hj
      rw [group_by_index_cons, hgr]
      simp [merge_cont, hj, hj2]

theorem seg_loop_cons_skip (snap i o : Nat) (rest : List (Nat × Nat))
    (m : List (Nat × List Nat)) (h : i < snap) :
    seg_loop snap ((i, o) :: rest) m = seg_loop snap rest m := by
  simp only [seg_loop]
  rw [if_pos h]

theorem seg_loop_cons_found (snap i o : Nat) (rest : List (Nat × Nat))
    (m : List (Nat × List Nat)) (offsets : List Nat)
    (h : assoc_get m i = some offsets) (hskip : ¬ i < snap) :
    seg_loop snap ((i, o) :: rest) m =
      if offsets.getLastD 0 ≥ o then .error (.outOfOrder i o)
      else seg_loop snap rest (assoc_append m i o) := by
  simp only [seg_loop]
  rw [if_neg hskip, h]

theorem seg_loop_cons_new (snap i o : Nat) (rest : List (Nat × Nat))
    (m : List (Nat × List Nat))
    (h : assoc_get m i = none) (hskip : ¬ i < snap) :
    seg_loop snap ((i, o) :: rest) m =
      if o ≠ 0 then .error (.missingInitial i o)
      else seg_loop snap rest (btree_insert i [o] m) := by
  simp only [seg_loop]
  rw [if_neg hskip, h]

theorem seg_loop_cont (snap : Nat) (L : List (Nat × Nat)) :
    ∀ (k : Nat) (offs : List Nat) (m0 : List (Nat × List Nat)),
      L.Pairwise (fun a b => a.1 ≤ b.1) → (∀ s ∈ L, k ≤ s.1) → snap ≤ k → offs ≠ [] →
      (∀ g ∈ m0, g.1 < k) →
      ∀ gs : List (Nat × List Nat),
        (seg_loop snap L (m0 ++ [(k, offs)]) = .ok gs ↔
          (gs = m0 ++ merge_cont k offs (group_by_index L) ∧
           cont_ok k (offs.getLastD 0) (group_by_index L) = true)) := by
  induction L with
  | nil =>
    intro k offs m0 _ _ _ _ _ gs
    simp [seg_loop, group_by_index, merge_cont, cont_ok, eq_comm]
  | cons s rest ih =>
    obtain ⟨i, o⟩ := s
    intro k offs m0 hp hk hsnap hoffs hm0 gs
    have hki : k ≤ i := hk (i, o) (List.mem_cons_self _ _)
    have hio : ∀ t ∈ rest, i ≤ t.1 := (List.pairwise_cons.mp hp).1
    have hrest : rest.Pairwise (fun a b => a.1 ≤ b.1) := (List.pairwise_cons.mp hp).2
    by_cases hik : i = k
    · subst hik
      have hget : assoc_get (m0 ++ [(i, offs)]) i = some offs := by
        rw [assoc_get_snoc m0 i offs i hm0 le_rfl]
        simp
      rw [seg_loop_cons_found snap i o rest _ offs hget (by omega)]
      by_cases herr : offs.getLastD 0 ≥ o
      · rw [if_pos herr]
        rw [cont_ok_err i (offs.getLastD 0) o rest herr]
        simp
      · rw [if_neg herr]
        rw [assoc_append_snoc m0 i offs o hm0]
        rw [ih i (offs ++ [o]) m0 hrest hio hsnap (by simp) hm0 gs]
        rw [merge_cont_absorb i offs o rest]
        rw [cont_ok_absorb i offs o rest (by omega)]
    · have hlt : k < i := by omega
      have hget : assoc_get (m0 ++ [(k, offs)]) i = none := by
        rw [assoc_get_snoc m0 k offs i hm0 hki]
        rw [if_neg hik]
      rw [seg_loop_cons_new snap i o rest _ hget (by omega)]
      by_cases ho : o ≠ 0
      · rw [if_pos ho]
        rw [cont_ok_new_err k (offs.getLastD 0) i o rest (by omega) ho]
        simp
      · push_neg at ho
        subst ho
        rw [if_neg (by simp)]
        have hkeys : ∀ g ∈ m0 ++ [(k, offs)], g.1 < i := by
          intro g hg
          rcases List.mem_append.mp hg with h | h
          · have := hm0 g h
            omega
          · simp at h
            subst h
            omega
        rw [btree_insert_snoc (m0 ++ [(k, offs)]) i [0] hkeys]
        rw [ih i [0] (m0 ++ [(k, offs)]) hrest hio (by omega) (by simp) hkeys gs]
        rw [merge_cont_new k offs i 0 rest (by omega)]
        rw [cont_ok_new k (offs.getLastD 0) i rest (by omega)]
        constructor
        · rintro ⟨h1, h2⟩
          refine ⟨?_, h2⟩
          rw [h1, ← merge_cont_zero i rest]
          simp [List.append_assoc]
        · rintro ⟨h1, h2⟩
          refine ⟨?_, h2⟩
          rw [h1, ← merge_cont_zero i rest]
          simp [List.append_assoc]

theorem seg_loop_start (snap : Nat) (L : List (Nat × Nat)) :
    L.Pairwise (fun a b => a.1 ≤ b.1) →
    ∀ gs : List (Nat × List Nat),
      (seg_loop snap L [] = .ok gs ↔
        (gs = group_by_index (L.filter fun s => decide (snap ≤ s.1)) ∧
         valid_groups (group_by_index (L.filter fun s => decide (snap ≤ s.1))) = true)) := by
  induction L with
  | nil =>
    intro _ gs
    simp [seg_loop, group_by_index, valid_groups, eq_comm]
  | cons s rest ih =>
    obtain ⟨i, o⟩ := s
    intro hp gs
    have hio : ∀ t ∈ rest, i ≤ t.1 := (List.pairwise_cons.mp hp).1
    have hrest : rest.Pairwise (fun a b => a.1 ≤ b.1) := (List.pairwise_cons.mp hp).2
    by_cases hsk : i < snap
    · rw [seg_loop_cons_skip snap i o rest [] hsk]
      have hdrop : (fun s : Nat × Nat => decide (snap ≤ s.1)) (i, o) = false := by
        simp
        omega
      simp only [List.filter_cons, hdrop, Bool.false_eq_true, if_false]
      exact ih hrest gs
    · push_neg at hsk
      have hkeep : (fun s : Nat × Nat => decide (snap ≤ s.1)) (i, o) = true := by
        simp
        omega
      have hfr : rest.filter (fun s => decide (snap ≤ s.1)) = rest :=
        List.filter_eq_self.mpr fun t ht => by
          have := hio t ht
          simp
          omega
      simp only [List.filter_cons, hkeep, if_true, hfr]
      rw [seg_loop_cons_new snap i o rest [] rfl (by omega)]
      by_cases ho : o ≠ 0
      · rw [if_pos ho]
        rw [valid_groups_cons_err i o rest ho]
        simp
      · push_neg at ho
        subst ho
        rw [if_neg (by simp)]
        rw [show btree_insert i [0] [] = [] ++ [(i, [0])] from rfl]
        rw [seg_loop_cont snap rest i [0] [] hrest hio hsk (by simp) (by simp) gs]
        rw [merge_cont_zero i rest]
        rw [valid_groups_cons_zero i rest]
        simp [List.getLastD]

/-- C3: counterexample.  With snapshot index 1 and listed segments
(index 0, offset 0) and (index 1, offset 0), one segment index is strictly
below the snapshot index, which the claim calls fatal; yet the planner
succeeds, returning the plan with the low-index segment silently skipped. -/
theorem c3_counterexample :
    restore_wal_segments_of 1 [(0, 0), (1, 0)] = .ok [(1, [0])] ∧ (0 : Nat) < 1 := by
  constructor
  · unfold restore_wal_segments_of
    rw [List.mergeSort_of_sorted (by decide)]
    rfl
  · decide

/-- C3 as amended: segments whose index is below the snapshot index are
skipped, not fatal.  For the remaining segments of the chosen generation,
sorted by (index, offset) and grouped by index, the planner returns a plan
exactly when every group's first offset is 0 and offsets within every group
are strictly increasing, and the returned plan is that grouping; otherwise it
returns an error. -/
theorem c3_segment_plan_amended (snap : Nat) (segs : List (Nat × Nat)) (gs : List (Nat × List Nat)) :
    restore_wal_segments_of snap segs = .ok gs ↔
      (gs = group_by_index ((segs.mergeSort lex_le).filter fun s => decide (snap ≤ s.1)) ∧
       valid_groups gs = true) := by
  have hp : (segs.mergeSort lex_le).Pairwise (fun a b : Nat × Nat => a.1 ≤ b.1) := by
    have h := List.sorted_mergeSort lex_le_trans lex_le_total segs
    exact h.imp fun hab => lex_le_fst hab
  unfold restore_wal_segments_of
  rw [seg_loop_start snap _ hp gs]
  constructor
  · rintro ⟨h1, h2⟩
    exact ⟨h1, h1 ▸ h2⟩
  · rintro ⟨h1, h2⟩
    exact ⟨h1, h1 ▸ h2⟩
